import Mathlib

/-!
Verification development for the xeno-crm backend.

This file gives a shallow embedding of the natural-language-to-rules
inference pipeline (convertNaturalLanguageToRules and its provider retry
logic from dist/routes/ai.js) and of the two rule compilers
(buildWhereClause from the campaigns route and buildWhereClauseForSegment
from the segments route), together with theorems about them.

Modelling conventions:
- JavaScript strings are modelled as lists of characters; all prompts in
  scope are ASCII, and toLowerCase is the per-character ASCII lowering.
- JavaScript numbers that arise here are exact decimal literals read from
  prompts or JSON; they are modelled as exact decimals
  (mantissa times ten to the minus exponent), with NaN a separate case
  where coercion can produce it.  IEEE-754 rounding of such short decimal
  literals is not modelled; no modelled computation depends on it.
- The regular expressions of the source are compiled by hand into
  scanners with the same leftmost-match, alternation-order and
  greedy/lazy semantics; each scanner is named after the regex it embeds.
- Provider I/O is abstracted as an attempt-indexed oracle returning
  either a parsed JSON document or a failure (timeout, empty body, or
  text from which no JSON could be extracted).
-/

/-! ## Characters and JS string primitives -/

/-- JS regex digit class, backslash-d. -/
def jsDigit (c : Char) : Bool := c.isDigit

/-- JS regex word-character class, backslash-w. -/
def isWordChar (c : Char) : Bool := c.isAlphanum || c = '_'

/-- JS regex whitespace class, backslash-s, restricted to ASCII. -/
def isJsSpace (c : Char) : Bool :=
  c = ' ' || c = '\t' || c = '\n' || c = '\r' || c = '\x0b' || c = '\x0c'

/-- Character class of the noun group in countPattern: a-z, A-Z, underscore. -/
def isNounChar (c : Char) : Bool :=
  ('a' ≤ c && c ≤ 'z') || ('A' ≤ c && c ≤ 'Z') || c = '_'

/-- Character class of the phrase group in betweenPattern: letters and space. -/
def isPhraseChar (c : Char) : Bool :=
  ('a' ≤ c && c ≤ 'z') || ('A' ≤ c && c ≤ 'Z') || c = ' '

/-- prompt.toLowerCase() as a character list (ASCII lowering). -/
def toLowerList (prompt : String) : List Char := prompt.toList.map Char.toLower

/-- Scan a string left to right; return the first position where the
matcher succeeds, with its result.  This is the leftmost-match rule of JS
regex search. -/
def scanFirst (tryAt : List Char → Option α) : List Char → Nat → Option (Nat × α)
  | [], _ => none
  | c :: rest, i =>
    match tryAt (c :: rest) with
    | some a => some (i, a)
    | none => scanFirst tryAt rest (i + 1)

/-- String.prototype.indexOf for a nonempty pattern: first index where the
pattern occurs, or none. -/
def jsIndexOfL (hay pat : List Char) : Option Nat :=
  (scanFirst (fun s => if pat.isPrefixOf s then some () else none) hay 0).map (·.1)

/-- String.prototype.includes. -/
def jsIncludes (hay : List Char) (pat : String) : Bool :=
  (jsIndexOfL hay pat.toList).isSome

/-- String.prototype.substring with the JS clamp-and-swap behaviour. -/
def jsSubstring (s : List Char) (a b : Nat) : List Char :=
  let a1 := min a s.length
  let b1 := min b s.length
  (s.drop (min a1 b1)).take (max a1 b1 - min a1 b1)

/-- String.prototype.trim restricted to ASCII whitespace. -/
def jsTrim (s : List Char) : List Char :=
  ((s.dropWhile isJsSpace).reverse.dropWhile isJsSpace).reverse

/-- True when the list starts with a word boundary: either it is empty or
its first character is not a word character.  Used for the closing
backslash-b of a word regex. -/
def boundaryAfter : List Char → Bool
  | [] => true
  | c :: _ => !isWordChar c

/-- Helper for the regex backslash-b w backslash-b test: prevW says whether
the character before the current suffix was a word character. -/
def wordSearch (w : List Char) : Bool → List Char → Bool
  | _, [] => false
  | prevW, c :: rest =>
    (!prevW && w.isPrefixOf (c :: rest) && boundaryAfter ((c :: rest).drop w.length))
      || wordSearch w (isWordChar c) rest

/-- The test of the regex backslash-b or backslash-b. -/
def testWordOr (s : List Char) : Bool := wordSearch "or".toList false s

/-- The test of the regex backslash-b and backslash-b. -/
def testWordAnd (s : List Char) : Bool := wordSearch "and".toList false s

/-! ## Exact decimal numbers

JS numbers occurring in this code path are decimal literals extracted by
regexes, or results of Math.round and integer multiplication on them.
They are modelled exactly as mantissa / 10 ^ exp. -/

/-- An exact decimal: mantissa divided by ten to the exp. -/
structure Dec where
  m : Int
  e : Nat
deriving DecidableEq, Repr

/-- A JS number: an exact decimal or NaN. -/
inductive JsNum where
  | dec (d : Dec)
  | nan
deriving DecidableEq, Repr

/-- Embed an integer as a decimal. -/
def Dec.ofInt (n : Int) : Dec := ⟨n, 0⟩

/-- Numeric strict order on decimals by cross multiplication. -/
def Dec.blt (a b : Dec) : Bool := a.m * (10 : Int) ^ b.e < b.m * (10 : Int) ^ a.e

/-- Numeric order on decimals by cross multiplication. -/
def Dec.ble (a b : Dec) : Bool := a.m * (10 : Int) ^ b.e ≤ b.m * (10 : Int) ^ a.e

/-- Exact difference of decimals. -/
def Dec.sub (a b : Dec) : Dec := ⟨a.m * (10 : Int) ^ b.e - b.m * (10 : Int) ^ a.e, a.e + b.e⟩

/-- JS Math.round: floor of x + one half, on an exact decimal. -/
def jsRound (d : Dec) : Int := (2 * d.m + (10 : Int) ^ d.e).fdiv (2 * (10 : Int) ^ d.e)

/-- JS < on numbers: false whenever either side is NaN. -/
def jsNumLt (a b : JsNum) : Bool :=
  match a, b with
  | .dec x, .dec y => x.blt y
  | _, _ => false

/-- JS <= on numbers: false whenever either side is NaN. -/
def jsNumLe (a b : JsNum) : Bool :=
  match a, b with
  | .dec x, .dec y => x.ble y
  | _, _ => false

/-! ## The number regex and numeral parsing -/

/-- Value of a digit character. -/
def digitVal (c : Char) : Nat := c.toNat - 48

/-- Digits to a natural number, most significant first. -/
def digitsToNat (l : List Char) : Nat := l.foldl (fun acc c => acc * 10 + digitVal c) 0

/-- Parse a numeral matched by the number regex (digits with an optional
fractional part) into an exact decimal.  This is the value JS Number gives
such a literal, up to IEEE rounding which is not modelled. -/
def parseNumeral (l : List Char) : Dec :=
  let ip := l.takeWhile (fun c => c ≠ '.')
  let fp := (l.dropWhile (fun c => c ≠ '.')).drop 1
  ⟨(digitsToNat (ip ++ fp) : Int), fp.length⟩

/-- Match the number regex (digits, optionally a dot and more digits) at
the head of the string.  Returns the consumed length and the numeral.
Greedy matching of digit runs needs no backtracking here. -/
def tryNumberAt (s : List Char) : Option (Nat × List Char) :=
  let ds := s.takeWhile jsDigit
  if ds.isEmpty then none
  else
    match s.drop ds.length with
    | '.' :: r2 =>
      let fs := r2.takeWhile jsDigit
      if fs.isEmpty then some (ds.length, ds)
      else some (ds.length + 1 + fs.length, ds ++ '.' :: fs)
    | _ => some (ds.length, ds)

/-- String.prototype.matchAll: all non-overlapping leftmost matches of a
matcher that reports its consumed length.  Each entry is
(index, consumed length, result).  The fuel argument is the remaining
string length; every matcher here consumes at least one character, and
the max with one mirrors the lastIndex bump of JS matchAll. -/
def scanAllF (tryAt : List Char → Option (Nat × α)) : Nat → List Char → Nat → List (Nat × Nat × α)
  | 0, _, _ => []
  | _ + 1, [], _ => []
  | fuel + 1, c :: rest, i =>
    match tryAt (c :: rest) with
    | some (len, a) =>
      (i, len, a) :: scanAllF tryAt fuel ((c :: rest).drop (max len 1)) (i + max len 1)
    | none => scanAllF tryAt fuel rest (i + 1)

/-- matchAll entry point. -/
def scanAll (tryAt : List Char → Option (Nat × α)) (s : List Char) : List (Nat × Nat × α) :=
  scanAllF tryAt s.length s 0

/-- The numberMatches list of convertNaturalLanguageToRules: all matches of
the global number regex, as (index, value) pairs. -/
def numberMatches (lp : List Char) : List (Nat × Dec) :=
  (scanAll tryNumberAt lp).map (fun t => (t.1, parseNumeral t.2.2))

/-! ## findNearestNumber and condition candidates -/

/-- Absolute distance between two indices, as Math.abs of their difference. -/
def natDist (a b : Nat) : Nat := if a ≥ b then a - b else b - a

/-- Inner loop of findNearestNumber: the number match at minimal distance
from the keyword index ki, earlier matches winning ties (the source only
replaces the best on a strictly smaller distance). -/
def bestNumberNear (ki : Nat) (nms : List (Nat × Dec)) : Option (Dec × Nat) :=
  let r := nms.foldl
    (fun best nm =>
      let d := natDist nm.1 ki
      match best with
      | none => some (nm.2, nm.1, d)
      | some (v, i, bd) => if d < bd then some (nm.2, nm.1, d) else some (v, i, bd))
    none
  r.map (fun t => (t.1, t.2.1))

/-- findNearestNumber of the source: for the first keyword variant present
in the prompt, the nearest number match (value, index); none when no
keyword occurs or there are no number matches at all. -/
def findNearestNumber (lp : List Char) : List String → Option (Dec × Nat)
  | [] => none
  | kw :: more =>
    match jsIndexOfL lp kw.toList with
    | none => findNearestNumber lp more
    | some ki =>
      match bestNumberNear ki (numberMatches lp) with
      | some r => some r
      | none => findNearestNumber lp more

/-- The index recomputation of pushNumericCondition: indexOf of every
keyword, keep the nonnegative ones, first entry or zero. -/
def firstKwIndex (lp : List Char) (kws : List String) : Nat :=
  (kws.filterMap (fun k => jsIndexOfL lp k.toList)).headD 0

/-- A condition candidate as accumulated by convertNaturalLanguageToRules
before sorting: field, operator, value and the index used for ordering. -/
structure Candidate where
  field : String
  operator : String
  value : Dec
  index : Nat
deriving DecidableEq, Repr

/-- The operator-window inference shared by the branches: the first list of
keywords (searched in order) selects greater-than, the second selects
less-than, otherwise the default operator is used. -/
def windowOp (nearby : List Char) (gtKws ltKws : List String) (dflt : String) : String :=
  if gtKws.any (fun k => jsIncludes nearby k) then ">"
  else if ltKws.any (fun k => jsIncludes nearby k) then "<"
  else dflt

/-- pushNumericCondition of the source (the unused preferGreaterKeywords
parameter is dropped): push one candidate when a keyword and a number are
found, inferring the operator from a twenty-character window spanning the
keyword and the number.  Nat subtraction realises the clamp to zero. -/
def pushNumericCondition (lp : List Char) (field : String) (kws : List String)
    (defaultOp : String) : List Candidate :=
  match findNearestNumber lp kws with
  | none => []
  | some (v, nmIdx) =>
    let ki := firstKwIndex lp kws
    let start := min ki nmIdx - 20
    let stop := min lp.length (max ki nmIdx + 20)
    let nearby := jsSubstring lp start stop
    [⟨field, windowOp nearby ["more than", "over"] ["less than", "under"] defaultOp, v, ki⟩]

/-! ## The spend branch -/

/-- Lazy gap of the regexes: up to fuel non-digit characters, then a
numeral.  Returns the gap length and the numeral.  The lazy quantifier
means the first digit within the window starts the number. -/
def lazyDigit : List Char → Nat → Option (Nat × List Char)
  | [], _ => none
  | c :: rest, fuel =>
    if jsDigit c then (tryNumberAt (c :: rest)).map (fun p => (0, p.2))
    else
      match fuel with
      | 0 => none
      | fuel' + 1 => (lazyDigit rest fuel').map (fun p => (p.1 + 1, p.2))

/-- One alternative of the spend regex at the current position: the keyword,
then the lazy non-digit gap of at most twenty, then a numeral.  Returns
(keyword length, gap length, numeral). -/
def trySpendKw (kw : List Char) (s : List Char) : Option (Nat × Nat × List Char) :=
  if kw.isPrefixOf s then
    (lazyDigit (s.drop kw.length) 20).map (fun p => (kw.length, p.1, p.2))
  else none

/-- The regex (spent|spending|spend) non-digit-gap numeral, leftmost match,
alternatives tried in source order.  Returns the value and the index of
the numeral inside the prompt (the source adds indexOf of the capture in
the whole match, which is the numeral position since keyword and gap hold
no digit). -/
def spendM1 (lp : List Char) : Option (Dec × Nat) :=
  (scanFirst
    (fun s =>
      match trySpendKw "spent".toList s with
      | some r => some r
      | none =>
        match trySpendKw "spending".toList s with
        | some r => some r
        | none => trySpendKw "spend".toList s)
    lp 0).map (fun r => (parseNumeral r.2.2.2, r.1 + r.2.1 + r.2.2.1))

/-- The regex over whitespace numeral at one position. -/
def tryOverAt (s : List Char) : Option Dec :=
  if "over".toList.isPrefixOf s then
    (tryNumberAt ((s.drop 4).dropWhile isJsSpace)).map (fun p => parseNumeral p.2)
  else none

/-- The regex over backslash-s-star numeral, leftmost match; the index is
the match start. -/
def overM2 (lp : List Char) : Option (Dec × Nat) :=
  (scanFirst tryOverAt lp 0).map (fun r => (r.2, r.1))

/-- The matched value of the spend branch: the first regex, else the over
regex guarded by an includes check of the literal spend. -/
def spendMatched (lp : List Char) : Option (Dec × Nat) :=
  match spendM1 lp with
  | some r => some r
  | none =>
    match overM2 lp with
    | some r => if jsIncludes lp "spend" then some r else none
    | none => none

/-- The twenty-character window each side of an index, clamped to the
string (start clamp by Nat subtraction, end clamp by min). -/
def aroundWindow (lp : List Char) (idx : Nat) : List Char :=
  jsSubstring lp (idx - 20) (min lp.length (idx + 20))

/-- The spend branch of convertNaturalLanguageToRules. -/
def spendCands (lp : List Char) : List Candidate :=
  if jsIncludes lp "spend" || jsIncludes lp "spent" || jsIncludes lp "spending" then
    match spendMatched lp with
    | some (v, idx) =>
      [⟨"totalSpending",
        windowOp (aroundWindow lp idx) ["more than", "over"] ["less than", "under"] ">=",
        v, idx⟩]
    | none =>
      pushNumericCondition lp "totalSpending" ["spent", "spending", "spend", "over", "more than"] ">="
  else []

/-! ## The visit branch -/

/-- The regex visited non-digit-gap numeral at one position. -/
def tryVisitedAt (s : List Char) : Option Dec :=
  if "visited".toList.isPrefixOf s then
    (lazyDigit (s.drop 7) 20).map (fun p => parseNumeral p.2)
  else none

/-- The regex visited non-digit-gap numeral, leftmost; index is the match
start (the source uses m.index here, unlike the spend branch). -/
def visitedM1 (lp : List Char) : Option (Dec × Nat) :=
  (scanFirst tryVisitedAt lp 0).map (fun r => (r.2, r.1))

/-- The regex numeral backslash-s-star (times|visits) at one position.
Backtracking of the greedy digit run cannot help since a shorter run ends
before a digit, which neither alternative starts with. -/
def tryTimesAt (s : List Char) : Option Dec :=
  match tryNumberAt s with
  | some (len, numeral) =>
    let r := (s.drop len).dropWhile isJsSpace
    if "times".toList.isPrefixOf r || "visits".toList.isPrefixOf r then
      some (parseNumeral numeral)
    else none
  | none => none

/-- The regex numeral (times|visits), leftmost; index is the match start. -/
def timesM2 (lp : List Char) : Option (Dec × Nat) :=
  (scanFirst tryTimesAt lp 0).map (fun r => (r.2, r.1))

/-- The matched value of the visit branch. -/
def visitMatched (lp : List Char) : Option (Dec × Nat) :=
  match visitedM1 lp with
  | some r => some r
  | none => timesM2 lp

/-- The visit branch of convertNaturalLanguageToRules.  In the direct-match
path less-than is recognised only through the words less than, not
through under; the pushNumericCondition fallback does recognise under. -/
def visitCands (lp : List Char) : List Candidate :=
  if jsIncludes lp "visit" || jsIncludes lp "visits" || jsIncludes lp "times"
      || jsIncludes lp "came" then
    match visitMatched lp with
    | some (v, idx) =>
      [⟨"visitCount",
        windowOp (aroundWindow lp idx) ["more than", "over"] ["less than"] ">=",
        v, idx⟩]
    | none =>
      pushNumericCondition lp "visitCount" ["visit", "visits", "times", "time", "came"] ">="
  else []

/-! ## The time branch -/

/-- The time branch of convertNaturalLanguageToRules: nearest number to the
first present time keyword, months turned into days by rounding then
multiplying by thirty, days rounded; the operator is always before. -/
def timeCands (lp : List Char) : List Candidate :=
  if jsIncludes lp "month" || jsIncludes lp "months" || jsIncludes lp "day"
      || jsIncludes lp "days" || jsIncludes lp "last" then
    match findNearestNumber lp ["month", "months", "day", "days", "last"] with
    | some (v, _) =>
      let ki := firstKwIndex lp ["month", "months", "day", "days", "last"]
      let days : Int :=
        if jsIncludes lp "month" || jsIncludes lp "months" then jsRound v * 30 else jsRound v
      [⟨"lastVisit", "before", Dec.ofInt days, ki⟩]
    | none => []
  else []

/-! ## The countPattern branch -/

/-- Operator alternatives of countPattern, in source order. -/
def countOps : List String :=
  ["greater than", "more than", "over", "less than", "under", ">=", ">", "<=", "<", "="]

/-- Tail of countPattern after the operator position: optional whitespace
then a numeral.  Returns consumed length and value. -/
def spaceNum (s : List Char) : Option (Nat × Dec) :=
  let sp := s.takeWhile isJsSpace
  (tryNumberAt (s.drop sp.length)).map (fun p => (sp.length + p.1, parseNumeral p.2))

/-- The optional operator group of countPattern with its continuation:
alternatives tried in order, each followed by whitespace and a numeral;
when none fits, the group matches empty. -/
def opThenNum : List String → List Char → Option (Nat × Dec)
  | [], s => spaceNum s
  | op :: more, s =>
    match
      (if op.toList.isPrefixOf s then
        (spaceNum (s.drop op.length)).map (fun p => (op.length + p.1, p.2))
      else none) with
    | some r => some r
    | none => opThenNum more s

/-- Keyword alternatives of countPattern, in source order. -/
def countKws : List String := ["count", "counts", "number of", "no of"]

/-- The keyword alternation of countPattern with its continuation: each
keyword is followed by a literal space, the optional operator group, and
the numeral. -/
def tryCountKws : List String → List Char → Option (Nat × Dec)
  | [], _ => none
  | kw :: more, r =>
    match
      (if kw.toList.isPrefixOf r then
        match r.drop kw.length with
        | ' ' :: r2 => (opThenNum countOps r2).map (fun p => (kw.length + 1 + p.1, p.2))
        | _ => none
      else none) with
    | some x => some x
    | none => tryCountKws more r

/-- countPattern at one position: a nonempty noun of letters or underscore
(greedy, and no backtrack can help since the next token is a literal
space), a space, the keyword alternation, the optional operator, then a
numeral.  Returns consumed length, noun and value. -/
def tryCountAt (s : List Char) : Option (Nat × List Char × Dec) :=
  let noun := s.takeWhile isNounChar
  if noun.isEmpty then none
  else
    match s.drop noun.length with
    | ' ' :: rest =>
      (tryCountKws countKws rest).map (fun p => (noun.length + 1 + p.1, noun, p.2))
    | _ => none

/-- The suffix appended to the noun to form the field name. -/
def countSuffix : List Char := ['C', 'o', 'u', 'n', 't']

/-- The countPattern branch: for every match, a candidate on the field
noun plus Count, with the operator inferred from a window spanning twenty
characters each side of the whole match (ends clamped by substring). -/
def countCands (lp : List Char) : List Candidate :=
  (scanAll tryCountAt lp).map
    (fun m =>
      let ki := m.1
      let mlen := m.2.1
      let noun := m.2.2.1
      let surrounding := jsSubstring lp (ki - 20) (ki + mlen + 20)
      ⟨String.mk (noun ++ countSuffix),
        windowOp surrounding ["greater than", "more than", "over"] ["less than", "under"] ">=",
        m.2.2.2, ki⟩)

/-! ## The betweenPattern branch -/

/-- Tail of betweenPattern after the phrase: the literal word between with
its surrounding spaces, a numeral, the literal and, a numeral.  Returns
consumed length and both values. -/
def betweenTail (s : List Char) : Option (Nat × Dec × Dec) :=
  if " between ".toList.isPrefixOf s then
    match tryNumberAt (s.drop 9) with
    | some (l1, n1) =>
      if " and ".toList.isPrefixOf ((s.drop 9).drop l1) then
        match tryNumberAt (((s.drop 9).drop l1).drop 5) with
        | some (l2, n2) => some (9 + l1 + 5 + l2, parseNumeral n1, parseNumeral n2)
        | none => none
      else none
    | none => none
  else none

/-- The lazy phrase of betweenPattern: grow one phrase character at a time,
trying the tail after each growth (lazy plus quantifier). -/
def tryBetweenAux (acc : List Char) : List Char → Option (List Char × Nat × Dec × Dec)
  | [] => none
  | c :: rest =>
    if isPhraseChar c then
      match betweenTail rest with
      | some (tl, lo, hi) => some (acc ++ [c], acc.length + 1 + tl, lo, hi)
      | none => tryBetweenAux (acc ++ [c]) rest
    else none

/-- betweenPattern at one position, shaped for matchAll. -/
def tryBetweenAt (s : List Char) : Option (Nat × List Char × Dec × Dec) :=
  (tryBetweenAux [] s).map (fun r => (r.2.1, r.1, r.2.2))

/-- The conditions contributed by one betweenPattern match: two bounds on
totalSpending for a spend-family phrase, two bounds on visitCount for a
visit-family phrase, nothing otherwise.  The second condition is given
index one past the first, as in the source. -/
def betweenPush (m : Nat × Nat × List Char × Dec × Dec) : List Candidate :=
  if jsIncludes (jsTrim m.2.2.1) "spend" || jsIncludes (jsTrim m.2.2.1) "spent"
      || jsIncludes (jsTrim m.2.2.1) "spending" then
    [⟨"totalSpending", ">=", m.2.2.2.1, m.1⟩, ⟨"totalSpending", "<=", m.2.2.2.2, m.1 + 1⟩]
  else if jsIncludes (jsTrim m.2.2.1) "visit" || jsIncludes (jsTrim m.2.2.1) "visits"
      || jsIncludes (jsTrim m.2.2.1) "times" then
    [⟨"visitCount", ">=", m.2.2.2.1, m.1⟩, ⟨"visitCount", "<=", m.2.2.2.2, m.1 + 1⟩]
  else []

/-- The betweenPattern branch. -/
def betweenCands (lp : List Char) : List Candidate :=
  ((scanAll tryBetweenAt lp).map betweenPush).flatten

/-! ## Assembling the candidates -/

/-- All condition candidates, in push order: spend, visit, time, count,
between. -/
def conditionCandidates (lp : List Char) : List Candidate :=
  spendCands lp ++ visitCands lp ++ timeCands lp ++ countCands lp ++ betweenCands lp

/-- Stable insertion used to model the stable JS Array sort by index:
the new element goes before the first strictly larger index. -/
def stableInsert (c : Candidate) : List Candidate → List Candidate
  | [] => [c]
  | d :: rest => if c.index < d.index then c :: d :: rest else d :: stableInsert c rest

/-- The stable sort by index of the candidate list.  JS Array sort with
the comparator on index is stable, so it equals this insertion sort. -/
def sortByIndex (l : List Candidate) : List Candidate :=
  l.foldl (fun acc c => stableInsert c acc) []

/-- A condition value: a JS number or a string (the union the provider
schema admits; locally inferred values are always numbers). -/
inductive Value where
  | num (d : Dec)
  | str (s : String)
deriving DecidableEq, Repr

/-- A rule condition as emitted by the pipeline. -/
structure Condition where
  field : String
  operator : String
  value : Value
deriving DecidableEq, Repr

/-- A candidate stripped to the pushed condition. -/
def Candidate.toCondition (c : Candidate) : Condition := ⟨c.field, c.operator, .num c.value⟩

/-- The local rules document of Stage A: logic, conditions, optional
connectors. -/
structure LocalRules where
  logic : String
  conditions : List Condition
  connectors : Option (List String)
deriving DecidableEq, Repr

/-- The per-gap connectors: for each consecutive pair of sorted candidates,
OR when the prompt text strictly between their indices contains the word
or, otherwise AND.  Computed only when there are at least two
candidates. -/
def connectorsOf (lp : List Char) (cands : List Candidate) : List String :=
  if cands.length > 1 then
    (cands.zip cands.tail).map
      (fun p =>
        if testWordOr (jsTrim (jsSubstring lp p.1.index p.2.index)) then "OR" else "AND")
  else []

/-- Stage A of convertNaturalLanguageToRules: the local heuristic
extraction, before any provider involvement. -/
def localRules (prompt : String) : LocalRules :=
  let lp := toLowerList prompt
  let cands := sortByIndex (conditionCandidates lp)
  let conns := connectorsOf lp cands
  ⟨if conns.length = 0 && testWordOr lp && !testWordAnd lp then "OR" else "AND",
   cands.map Candidate.toCondition,
   if conns.length > 0 then some conns else none⟩

/-! ## JSON values and the zod rules schema -/

/-- A parsed JSON value, as extractJsonFromText would hand to the zod
schema. -/
inductive Json where
  | null
  | bool (b : Bool)
  | num (d : Dec)
  | str (s : String)
  | arr (l : List Json)
  | obj (l : List (String × Json))

/-- Key lookup in a JSON object (keys are unique in parsed JSON; the first
binding wins). -/
def jLookup (l : List (String × Json)) (k : String) : Option Json :=
  match l with
  | [] => none
  | (k1, v) :: rest => if k1 = k then some v else jLookup rest k

/-- zod z.union of z.string and z.number. -/
def parseValue : Json → Option Value
  | .str s => some (.str s)
  | .num d => some (.num d)
  | _ => none

/-- zod z.enum of AND and OR. -/
def parseEnumLogic : Json → Option String
  | .str s => if s = "AND" || s = "OR" then some s else none
  | _ => none

/-- The zod ConditionSchema: an object with a string field, a string
operator and a string-or-number value; anything else is rejected, unknown
keys are stripped. -/
def parseConditionJson : Json → Option Condition
  | .obj l =>
    match jLookup l "field", jLookup l "operator", jLookup l "value" with
    | some (.str f), some (.str op), some v => (parseValue v).map (fun w => ⟨f, op, w⟩)
    | _, _, _ => none
  | _ => none

/-- zod z.array of ConditionSchema. -/
def parseConditionList : List Json → Option (List Condition)
  | [] => some []
  | j :: rest =>
    match parseConditionJson j, parseConditionList rest with
    | some c, some cs => some (c :: cs)
    | _, _ => none

/-- zod z.array of the connector enum. -/
def parseConnectorList : List Json → Option (List String)
  | [] => some []
  | j :: rest =>
    match parseEnumLogic j, parseConnectorList rest with
    | some c, some cs => some (c :: cs)
    | _, _ => none

/-- A provider rules document accepted by the zod RulesSchema.  Note the
schema places no constraint relating the connectors length to the
conditions length. -/
structure ParsedRules where
  logic : String
  conditions : List Condition
  connectors : Option (List String)
deriving DecidableEq, Repr

/-- The zod RulesSchema parse: an object with an enum logic, an array of
conditions and an optional array of connector enums. -/
def rulesSchemaParse : Json → Option ParsedRules
  | .obj l =>
    match jLookup l "logic", jLookup l "conditions" with
    | some lj, some (.arr cl) =>
      match parseEnumLogic lj, parseConditionList cl with
      | some lg, some cs =>
        match jLookup l "connectors" with
        | none => some ⟨lg, cs, none⟩
        | some (.arr conn) => (parseConnectorList conn).map (fun cn => ⟨lg, cs, some cn⟩)
        | some _ => none
      | _, _ => none
    | _, _ => none
  | _ => none

/-! ## Environment gates and the provider pipeline -/

/-- The environment variables convertNaturalLanguageToRules reads.  none
models an unset variable. -/
structure Env where
  ENABLE_PROVIDER_NL_TO_RULES : Option String
  GEMINI_API_KEY : Option String
  OPENAI_API_KEY : Option String
  PROVIDER_FIRST_NL_TO_RULES : Option String
deriving DecidableEq, Repr

/-- JS truthiness of a possibly unset string: set and nonempty. -/
def truthy : Option String → Bool
  | none => false
  | some s => !(s = "")

/-- JS a or-or b on possibly unset strings: a when truthy, else b. -/
def jsOrOpt (a b : Option String) : Option String := if truthy a then a else b

/-- enableProvider: the generic enable flag equals the string true. -/
def Env.enableProvider (e : Env) : Bool := e.ENABLE_PROVIDER_NL_TO_RULES = some "true"

/-- apiKey: the Gemini key, else the OpenAI key. -/
def Env.apiKey (e : Env) : Option String := jsOrOpt e.GEMINI_API_KEY e.OPENAI_API_KEY

/-- providerFirst: the provider-first flag equals true, or the provider is
enabled and the Gemini key is set. -/
def Env.providerFirst (e : Env) : Bool :=
  (e.PROVIDER_FIRST_NL_TO_RULES = some "true") || (e.enableProvider && truthy e.GEMINI_API_KEY)

/-- providerName. -/
def Env.providerName (e : Env) : String :=
  if truthy e.GEMINI_API_KEY then "GEMINI"
  else if truthy e.OPENAI_API_KEY then "OPENAI" else "NONE"

/-- One provider attempt, abstracted: callProviderApi followed by
extractJsonFromText.  none is any failure of the attempt: a thrown or
timed-out request, an empty response, or text without extractable JSON.
The argument numbers the call globally across the run. -/
def ProviderOracle : Type := Nat → Option Json

/-- callProviderForRulesWithRetries: up to the given number of attempts,
returning the first extracted JSON; the thrown error of an exhausted
budget is the none result.  The second component counts the calls made,
and the start argument numbers them after earlier stages. -/
def callProviderForRulesWithRetries (provider : ProviderOracle) (start : Nat) :
    Nat → Option Json × Nat
  | 0 => (none, 0)
  | n + 1 =>
    match provider start with
    | some j => (some j, 1)
    | none =>
      let r := callProviderForRulesWithRetries provider (start + 1) n
      (r.1, r.2 + 1)

/-- The rules document convertNaturalLanguageToRules resolves with:
the local document plus the provider tag (null for the local path). -/
structure RuleDocument where
  logic : String
  conditions : List Condition
  connectors : Option (List String)
  provider : Option String
deriving DecidableEq, Repr

/-- The local result with the provider field null. -/
def localReturn (lr : LocalRules) : RuleDocument := ⟨lr.logic, lr.conditions, lr.connectors, none⟩

/-- The provider-fallback stage of convertNaturalLanguageToRules: when the
local heuristics produced fewer than two conditions and the provider is
enabled with a key, retry the provider twice; a schema-valid response
with at least one condition is returned with the provider name, any
failure is caught and the local rules are returned with provider null.
The Nat components thread the global call count. -/
def providerFallbackStage (e : Env) (provider : ProviderOracle) (lr : LocalRules)
    (k0 : Nat) : RuleDocument × Nat :=
  if decide (lr.conditions.length < 2) && e.enableProvider && truthy e.apiKey then
    match callProviderForRulesWithRetries provider k0 2 with
    | (some j, k2) =>
      match rulesSchemaParse j with
      | some p =>
        if p.conditions.length > 0 then
          (⟨p.logic, p.conditions, p.connectors, some e.providerName⟩, k0 + k2)
        else (localReturn lr, k0 + k2)
      | none => (localReturn lr, k0 + k2)
    | (none, k2) => (localReturn lr, k0 + k2)
  else (localReturn lr, k0)

/-- convertNaturalLanguageToRules: Stage A local heuristics, then the
provider-first attempt (three retries) when enabled with a key and
provider-first active, then the weak-local fallback stage.  All provider
and schema failures are caught; the function is total.  The second
component counts provider calls made. -/
def convertNaturalLanguageToRules (e : Env) (provider : ProviderOracle) (prompt : String) :
    RuleDocument × Nat :=
  if e.enableProvider && truthy e.apiKey && e.providerFirst then
    match callProviderForRulesWithRetries provider 0 3 with
    | (some j, k1) =>
      match rulesSchemaParse j with
      | some p =>
        if p.conditions.length > 0 then
          (⟨p.logic, p.conditions, p.connectors, some e.providerName⟩, k1)
        else providerFallbackStage e provider (localRules prompt) k1
      | none => providerFallbackStage e provider (localRules prompt) k1
    | (none, k1) => providerFallbackStage e provider (localRules prompt) k1
  else providerFallbackStage e provider (localRules prompt) 0

/-! ## Number coercion for the compilers

Both compilers apply JS Number to the condition value.  On a number it is
the identity; on a string it parses a decimal literal or yields NaN.
Only the decimal subset of the JS string-to-number grammar is modelled
(no sign, hex, or exponent forms); no claim depends on the excluded
forms, and both compilers apply the same coercion. -/

/-- JS Number on a string: trimmed empty is zero, a full decimal literal
is its value, anything else NaN (decimal subset of the JS grammar). -/
def jsNumberOfString (s : String) : JsNum :=
  let t := jsTrim s.toList
  if t.isEmpty then .dec (Dec.ofInt 0)
  else
    match tryNumberAt t with
    | some (len, numeral) => if len = t.length then .dec (parseNumeral numeral) else .nan
    | none => .nan

/-- JS Number on a condition value. -/
def jsNumberOfValue : Value → JsNum
  | .num d => .dec d
  | .str s => jsNumberOfString s

/-! ## The where-clause structures -/

/-- A numeric Prisma filter object: gt, lt, gte or lte of a coerced
value. -/
inductive NumFilter where
  | gt (v : JsNum)
  | lt (v : JsNum)
  | gte (v : JsNum)
  | lte (v : JsNum)
deriving DecidableEq, Repr

/-- A date Prisma filter on lastVisit: strictly before or strictly after
the cutoff computed from now and the condition value. -/
inductive DateFilter where
  | ltDate (cutoff : JsNum)
  | gtDate (cutoff : JsNum)
deriving DecidableEq, Repr

/-- A string Prisma filter on email: contains of the raw condition value
(the source passes the value uncoerced). -/
inductive StrFilter where
  | containsV (v : Value)
deriving DecidableEq, Repr

/-- One per-condition where object: at most one of the four keys is set;
the all-none object is the empty no-op constraint the switch default
produces. -/
structure ConditionWhere where
  totalSpending : Option NumFilter
  visitCount : Option NumFilter
  lastVisit : Option DateFilter
  email : Option StrFilter
deriving DecidableEq, Repr

/-- The empty per-condition constraint. -/
def emptyCW : ConditionWhere := ⟨none, none, none, none⟩

/-- The top-level where clause: empty when rules.conditions is absent,
otherwise the per-condition objects under AND or under OR. -/
inductive WhereClause where
  | empty
  | andW (l : List ConditionWhere)
  | orW (l : List ConditionWhere)
deriving DecidableEq, Repr

/-- The rules object as the compilers read it: a logic string, an optional
conditions array, an optional connectors array (never read by either
compiler). -/
structure CompilerRules where
  logic : String
  conditions : Option (List Condition)
  connectors : Option (List String)
deriving DecidableEq, Repr

/-- The date cutoff of the lastVisit case: now minus the coerced value, in
days on an abstract day-valued clock (the source subtracts the value from
the current date with setDate).  NaN propagates. -/
def daysAgoCutoff (now : Int) (v : JsNum) : JsNum :=
  match v with
  | .dec d => .dec ((Dec.ofInt now).sub d)
  | .nan => .nan

/-- The per-condition switch of buildWhereClause in the campaigns route:
totalSpending with the four comparison operators, visitCount with
strictly-greater and strictly-less only, lastVisit with before and after
against the day cutoff, email with contains; every other field or
operator leaves the constraint empty. -/
def buildConditionWhere (now : Int) (c : Condition) : ConditionWhere :=
  if c.field = "totalSpending" then
    if c.operator = ">" then ⟨some (.gt (jsNumberOfValue c.value)), none, none, none⟩
    else if c.operator = "<" then ⟨some (.lt (jsNumberOfValue c.value)), none, none, none⟩
    else if c.operator = ">=" then ⟨some (.gte (jsNumberOfValue c.value)), none, none, none⟩
    else if c.operator = "<=" then ⟨some (.lte (jsNumberOfValue c.value)), none, none, none⟩
    else emptyCW
  else if c.field = "visitCount" then
    if c.operator = ">" then ⟨none, some (.gt (jsNumberOfValue c.value)), none, none⟩
    else if c.operator = "<" then ⟨none, some (.lt (jsNumberOfValue c.value)), none, none⟩
    else emptyCW
  else if c.field = "lastVisit" then
    if c.operator = "before" then
      ⟨none, none, some (.ltDate (daysAgoCutoff now (jsNumberOfValue c.value))), none⟩
    else if c.operator = "after" then
      ⟨none, none, some (.gtDate (daysAgoCutoff now (jsNumberOfValue c.value))), none⟩
    else emptyCW
  else if c.field = "email" then
    if c.operator = "contains" then ⟨none, none, none, some (.containsV c.value)⟩
    else emptyCW
  else emptyCW

/-- buildWhereClause of the campaigns route: map the switch over the
conditions and wrap in OR exactly when rules.logic is OR, else in AND;
an absent conditions array gives the empty clause.  Only logic and
conditions are ever read. -/
def buildWhereClause (now : Int) (rules : CompilerRules) : WhereClause :=
  match rules.conditions with
  | some conds =>
    let cws := conds.map (buildConditionWhere now)
    if rules.logic = "OR" then .orW cws else .andW cws
  | none => .empty

/-- The per-condition switch of buildWhereClauseForSegment in the segments
route: as the campaign switch but with no lastVisit case at all. -/
def buildConditionWhereSegment (c : Condition) : ConditionWhere :=
  if c.field = "totalSpending" then
    if c.operator = ">" then ⟨some (.gt (jsNumberOfValue c.value)), none, none, none⟩
    else if c.operator = "<" then ⟨some (.lt (jsNumberOfValue c.value)), none, none, none⟩
    else if c.operator = ">=" then ⟨some (.gte (jsNumberOfValue c.value)), none, none, none⟩
    else if c.operator = "<=" then ⟨some (.lte (jsNumberOfValue c.value)), none, none, none⟩
    else emptyCW
  else if c.field = "visitCount" then
    if c.operator = ">" then ⟨none, some (.gt (jsNumberOfValue c.value)), none, none⟩
    else if c.operator = "<" then ⟨none, some (.lt (jsNumberOfValue c.value)), none, none⟩
    else emptyCW
  else if c.field = "email" then
    if c.operator = "contains" then ⟨none, none, none, some (.containsV c.value)⟩
    else emptyCW
  else emptyCW

/-- buildWhereClauseForSegment of the segments route. -/
def buildWhereClauseForSegment (rules : CompilerRules) : WhereClause :=
  match rules.conditions with
  | some conds =>
    let cws := conds.map buildConditionWhereSegment
    if rules.logic = "OR" then .orW cws else .andW cws
  | none => .empty

/-! ## Filter semantics over customer records -/

/-- A customer record with the filtered fields. -/
structure Customer where
  totalSpending : Dec
  visitCount : Dec
  lastVisit : Dec
  email : String
deriving DecidableEq, Repr

/-- A numeric filter against a field value. -/
def numFilterHolds (f : NumFilter) (x : Dec) : Bool :=
  match f with
  | .gt v => jsNumLt v (.dec x)
  | .lt v => jsNumLt (.dec x) v
  | .gte v => jsNumLe v (.dec x)
  | .lte v => jsNumLe (.dec x) v

/-- A date filter against a last-visit time on the day clock. -/
def dateFilterHolds (f : DateFilter) (t : Dec) : Bool :=
  match f with
  | .ltDate cut => jsNumLt (.dec t) cut
  | .gtDate cut => jsNumLt cut (.dec t)

/-- A contains filter against the email; a numeric value never matches
(Prisma rejects it at query time). -/
def strFilterHolds (f : StrFilter) (s : String) : Bool :=
  match f with
  | .containsV (.str v) => jsIncludes s.toList v
  | .containsV (.num _) => false

/-- A per-condition where object against a customer: the keys present must
all hold; the empty object holds of every customer. -/
def conditionWhereHolds (cw : ConditionWhere) (c : Customer) : Bool :=
  (match cw.totalSpending with | none => true | some f => numFilterHolds f c.totalSpending) &&
  (match cw.visitCount with | none => true | some f => numFilterHolds f c.visitCount) &&
  (match cw.lastVisit with | none => true | some f => dateFilterHolds f c.lastVisit) &&
  (match cw.email with | none => true | some f => strFilterHolds f c.email)

/-- The where clause against a customer: conjunction under AND (true of
everything when empty), disjunction under OR. -/
def whereHolds (w : WhereClause) (c : Customer) : Bool :=
  match w with
  | .empty => true
  | .andW l => l.all (fun cw => conditionWhereHolds cw c)
  | .orW l => l.any (fun cw => conditionWhereHolds cw c)

/-- A provider oracle answering a schema-valid document with one condition
and three connectors. -/
def oracleBadConnectors : ProviderOracle := fun _ =>
  some (.obj
    [("logic", .str "AND"),
     ("conditions", .arr
       [.obj [("field", .str "totalSpending"), ("operator", .str ">"), ("value", .num ⟨1, 0⟩)]]),
     ("connectors", .arr [.str "AND", .str "AND", .str "AND"])])

/-- The field and operator pairs the campaign compiler implements; every
other combination contributes an empty constraint. -/
def conditionSupported (c : Condition) : Bool :=
  (c.field = "totalSpending"
    && (c.operator = ">" || c.operator = "<" || c.operator = ">=" || c.operator = "<="))
  || (c.field = "visitCount" && (c.operator = ">" || c.operator = "<"))
  || (c.field = "lastVisit" && (c.operator = "before" || c.operator = "after"))
  || (c.field = "email" && c.operator = "contains")

/-! ## Helper lemmas about the candidate sort -/

theorem mem_stableInsert {x c : Candidate} {l : List Candidate} :
    x ∈ stableInsert c l ↔ x = c ∨ x ∈ l := by
  induction l with
  | nil => simp [stableInsert]
  | cons d rest ih =>
    simp only [stableInsert]
    split
    · simp [List.mem_cons]
    · simp only [List.mem_cons, ih]
      tauto

theorem mem_sortFold {x : Candidate} (l : List Candidate) :
    ∀ acc, x ∈ l.foldl (fun a c => stableInsert c a) acc ↔ x ∈ acc ∨ x ∈ l := by
  induction l with
  | nil => simp
  | cons c rest ih =>
    intro acc
    simp only [List.foldl_cons]
    rw [ih]
    simp only [mem_stableInsert, List.mem_cons]
    tauto

theorem mem_sortByIndex {x : Candidate} {l : List Candidate} :
    x ∈ sortByIndex l ↔ x ∈ l := by
  unfold sortByIndex
  rw [mem_sortFold]
  simp

theorem length_stableInsert (c : Candidate) (l : List Candidate) :
    (stableInsert c l).length = l.length + 1 := by
  induction l with
  | nil => rfl
  | cons d rest ih =>
    simp only [stableInsert]
    split
    · rfl
    · simp [ih]

theorem length_sortFold (l : List Candidate) :
    ∀ acc, (l.foldl (fun a c => stableInsert c a) acc).length = acc.length + l.length := by
  induction l with
  | nil => simp
  | cons c rest ih =>
    intro acc
    simp only [List.foldl_cons]
    rw [ih, length_stableInsert]
    simp only [List.length_cons]
    omega

theorem length_sortByIndex (l : List Candidate) : (sortByIndex l).length = l.length := by
  unfold sortByIndex
  rw [length_sortFold]
  simp

/-! ## Shape lemmas about the candidate branches -/

theorem pushNumericCondition_shape {c : Candidate} {lp : List Char} {f : String}
    {kws : List String} {dflt : String} (h : c ∈ pushNumericCondition lp f kws dflt) :
    c.field = f := by
  unfold pushNumericCondition at h
  split at h
  · simp at h
  · simp only [List.mem_singleton] at h
    subst h
    rfl

theorem spendCands_field {c : Candidate} {lp : List Char} (h : c ∈ spendCands lp) :
    c.field = "totalSpending" := by
  unfold spendCands at h
  split at h
  · split at h
    · simp only [List.mem_singleton] at h
      subst h
      rfl
    · exact pushNumericCondition_shape h
  · simp at h

theorem visitCands_field {c : Candidate} {lp : List Char} (h : c ∈ visitCands lp) :
    c.field = "visitCount" := by
  unfold visitCands at h
  split at h
  · split at h
    · simp only [List.mem_singleton] at h
      subst h
      rfl
    · exact pushNumericCondition_shape h
  · simp at h

theorem timeCands_shape {c : Candidate} {lp : List Char} (h : c ∈ timeCands lp) :
    c.field = "lastVisit" ∧ c.operator = "before" := by
  unfold timeCands at h
  split at h
  · split at h
    · simp only [List.mem_singleton] at h
      subst h
      exact ⟨rfl, rfl⟩
    · simp at h
  · simp at h

theorem countCands_field {c : Candidate} {lp : List Char} (h : c ∈ countCands lp) :
    ∃ noun, c.field = String.mk (noun ++ countSuffix) := by
  unfold countCands at h
  simp only [List.mem_map] at h
  obtain ⟨m, _, rfl⟩ := h
  exact ⟨m.2.2.1, rfl⟩

theorem countField_ne_lastVisit (noun : List Char) :
    String.mk (noun ++ countSuffix) ≠ "lastVisit" := by
  intro h
  have h2 : noun ++ countSuffix = "lastVisit".data := congrArg String.data h
  have hlen : noun.length + 5 = 9 := by
    have h3 := congrArg List.length h2
    simpa [countSuffix] using h3
  have h4 := congrArg (List.drop noun.length) h2
  rw [List.drop_left] at h4
  rw [show noun.length = 4 by omega] at h4
  exact absurd h4 (by decide)

theorem betweenPush_field {c : Candidate} {m : Nat × Nat × List Char × Dec × Dec}
    (h : c ∈ betweenPush m) : c.field = "totalSpending" ∨ c.field = "visitCount" := by
  unfold betweenPush at h
  split at h
  · simp only [List.mem_cons, List.mem_singleton] at h
    rcases h with h | h | h <;> first | (subst h; simp) | simp at h
  · split at h
    · simp only [List.mem_cons, List.mem_singleton] at h
      rcases h with h | h | h <;> first | (subst h; simp) | simp at h
    · simp at h

theorem betweenCands_field {c : Candidate} {lp : List Char} (h : c ∈ betweenCands lp) :
    c.field = "totalSpending" ∨ c.field = "visitCount" := by
  unfold betweenCands at h
  simp only [List.mem_flatten, List.mem_map] at h
  obtain ⟨l, ⟨m, _, rfl⟩, hc⟩ := h
  exact betweenPush_field hc

theorem conditionCandidates_lastVisit {c : Candidate} {lp : List Char}
    (h : c ∈ conditionCandidates lp) (hf : c.field = "lastVisit") :
    c.operator = "before" := by
  unfold conditionCandidates at h
  simp only [List.mem_append] at h
  rcases h with ((((h | h) | h) | h) | h)
  · rw [spendCands_field h] at hf
    exact absurd hf (by decide)
  · rw [visitCands_field h] at hf
    exact absurd hf (by decide)
  · exact (timeCands_shape h).2
  · obtain ⟨noun, he⟩ := countCands_field h
    rw [he] at hf
    exact absurd hf (countField_ne_lastVisit noun)
  · rcases betweenCands_field h with he | he <;> rw [he] at hf <;> exact absurd hf (by decide)

/-! ## Projection lemmas for the local document -/

theorem localRules_conditions (prompt : String) :
    (localRules prompt).conditions =
      (sortByIndex (conditionCandidates (toLowerList prompt))).map Candidate.toCondition := rfl

theorem localRules_connectors (prompt : String) :
    (localRules prompt).connectors =
      (if (connectorsOf (toLowerList prompt)
            (sortByIndex (conditionCandidates (toLowerList prompt)))).length > 0 then
        some (connectorsOf (toLowerList prompt)
          (sortByIndex (conditionCandidates (toLowerList prompt))))
      else none) := rfl

theorem localRules_logic (prompt : String) :
    (localRules prompt).logic =
      (if ((connectorsOf (toLowerList prompt)
              (sortByIndex (conditionCandidates (toLowerList prompt)))).length = 0
            && testWordOr (toLowerList prompt) && !testWordAnd (toLowerList prompt)) then
        "OR"
      else "AND") := rfl

theorem connectorsOf_length (lp : List Char) (cands : List Candidate) :
    (connectorsOf lp cands).length = if cands.length > 1 then cands.length - 1 else 0 := by
  unfold connectorsOf
  split
  · simp only [List.length_map, List.length_zip, List.length_tail]
    omega
  · rfl

/-! ## Claim C6 -/

/-- C6: every lastVisit condition produced by the Stage A local inference
has operator before (so after never appears locally), and the value is
normalised into days: in the last 2 months yields 60, in the last 10 days
yields 10. -/
theorem lastVisit_days_normalization :
    (∀ (prompt : String) (c : Condition), c ∈ (localRules prompt).conditions →
        c.field = "lastVisit" → c.operator = "before") ∧
    (localRules "in the last 2 months").conditions =
      [⟨"lastVisit", "before", .num ⟨60, 0⟩⟩] ∧
    (localRules "in the last 10 days").conditions =
      [⟨"lastVisit", "before", .num ⟨10, 0⟩⟩] := by
  refine ⟨?_, by decide, by decide⟩
  intro prompt c hc hf
  rw [localRules_conditions] at hc
  simp only [List.mem_map] at hc
  obtain ⟨cand, hmem, rfl⟩ := hc
  rw [mem_sortByIndex] at hmem
  exact conditionCandidates_lastVisit hmem hf

/-- Witness for C6 at a concrete prompt and condition. -/
theorem lastVisit_days_normalization_witness :
    (⟨"lastVisit", "before", .num ⟨60, 0⟩⟩ : Condition).operator = "before" :=
  lastVisit_days_normalization.1 "in the last 2 months" _
    (by rw [lastVisit_days_normalization.2.1]; exact List.mem_singleton.mpr rfl) rfl

/-! ## Claim C9 -/

/-- C9: whenever Stage A produces at least two conditions the top level
logic is AND; logic is OR only when fewer than two conditions were
produced, the prompt contains the word or, and it does not contain the
word and. -/
theorem logic_and_dominates (prompt : String) :
    (2 ≤ (localRules prompt).conditions.length → (localRules prompt).logic = "AND") ∧
    ((localRules prompt).logic = "OR" →
      (localRules prompt).conditions.length < 2 ∧
      testWordOr (toLowerList prompt) = true ∧
      testWordAnd (toLowerList prompt) = false) := by
  have hlen : (localRules prompt).conditions.length =
      (conditionCandidates (toLowerList prompt)).length := by
    rw [localRules_conditions, List.length_map, length_sortByIndex]
  have hconn : (connectorsOf (toLowerList prompt)
      (sortByIndex (conditionCandidates (toLowerList prompt)))).length =
      (if (conditionCandidates (toLowerList prompt)).length > 1 then
        (conditionCandidates (toLowerList prompt)).length - 1 else 0) := by
    rw [connectorsOf_length, length_sortByIndex]
  constructor
  · intro h2
    rw [hlen] at h2
    rw [localRules_logic]
    have hne : ((connectorsOf (toLowerList prompt)
        (sortByIndex (conditionCandidates (toLowerList prompt)))).length = 0) = False := by
      rw [hconn]
      simp only [eq_iff_iff, iff_false]
      split
      · omega
      · omega
    simp [hne]
  · intro hOR
    rw [localRules_logic] at hOR
    by_cases hb : ((connectorsOf (toLowerList prompt)
          (sortByIndex (conditionCandidates (toLowerList prompt)))).length = 0
        && testWordOr (toLowerList prompt) && !testWordAnd (toLowerList prompt)) = true
    · simp only [Bool.and_eq_true, decide_eq_true_eq, Bool.not_eq_true'] at hb
      obtain ⟨⟨hz, hor⟩, hand⟩ := hb
      refine ⟨?_, hor, hand⟩
      rw [hconn] at hz
      rw [hlen]
      split at hz
      · omega
      · omega
    · rw [if_neg (by simpa using hb)] at hOR
      exact absurd hOR (by decide)

/-- Witness for C9: a prompt with three conditions gets logic AND, and a
prompt with no conditions containing or but not and gets the OR facts. -/
theorem logic_and_dominates_witness :
    (localRules "customers who spent between 100 and 500").logic = "AND" ∧
    ((localRules "big spenders or not").conditions.length < 2 ∧
      testWordOr (toLowerList "big spenders or not") = true ∧
      testWordAnd (toLowerList "big spenders or not") = false) :=
  ⟨(logic_and_dominates "customers who spent between 100 and 500").1 (by decide),
   (logic_and_dominates "big spenders or not").2 (by decide)⟩

/-! ## The connectors length invariant of the local document -/

theorem localRules_connectors_length (prompt : String) (l : List String)
    (hl : (localRules prompt).connectors = some l) :
    l.length + 1 = (localRules prompt).conditions.length := by
  rw [localRules_connectors] at hl
  split at hl
  case isTrue hpos =>
    injection hl with h
    subst h
    rw [localRules_conditions, List.length_map, length_sortByIndex]
    rw [connectorsOf_length, length_sortByIndex] at hpos ⊢
    split at hpos
    · split
      · omega
      · omega
    · omega
  case isFalse => exact absurd hl (by simp)

/-! ## Case analysis of the infer pipeline -/

theorem providerFallbackStage_cases (e : Env) (provider : ProviderOracle) (lr : LocalRules)
    (k0 : Nat) :
    (providerFallbackStage e provider lr k0).1 = localReturn lr ∨
    (providerFallbackStage e provider lr k0).1.provider = some e.providerName := by
  unfold providerFallbackStage
  split
  · split
    · split
      · split
        · right; rfl
        · left; rfl
      · left; rfl
    · left; rfl
  · left; rfl

theorem providerFallbackStage_calls_ge (e : Env) (provider : ProviderOracle) (lr : LocalRules)
    (k0 : Nat) : k0 ≤ (providerFallbackStage e provider lr k0).2 := by
  unfold providerFallbackStage
  split
  · split
    · split
      · split
        · omega
        · omega
      · omega
    · omega
  · omega

theorem convert_cases (e : Env) (provider : ProviderOracle) (prompt : String) :
    (convertNaturalLanguageToRules e provider prompt).1 = localReturn (localRules prompt) ∨
    (convertNaturalLanguageToRules e provider prompt).1.provider = some e.providerName := by
  unfold convertNaturalLanguageToRules
  split
  · split
    · split
      · split
        · right; rfl
        · exact providerFallbackStage_cases e provider (localRules prompt) _
      · exact providerFallbackStage_cases e provider (localRules prompt) _
    · exact providerFallbackStage_cases e provider (localRules prompt) _
  · exact providerFallbackStage_cases e provider (localRules prompt) 0

theorem convert_provider_none_eq (e : Env) (provider : ProviderOracle) (prompt : String)
    (h : (convertNaturalLanguageToRules e provider prompt).1.provider = none) :
    (convertNaturalLanguageToRules e provider prompt).1 = localReturn (localRules prompt) := by
  rcases convert_cases e provider prompt with hc | hc
  · exact hc
  · rw [hc] at h
    exact absurd h (by simp)

/-! ## Claim C3 (amended): the connectors invariant on the local path -/

/-- C3 amended: every document convertNaturalLanguageToRules returns with
provider null (that is, through the local Stage A path) satisfies the
connectors length invariant: connectors, when present, have exactly one
fewer element than conditions.  A validated provider response is not
constrained this way, see the counterexample. -/
theorem connectors_length_local_invariant (e : Env) (provider : ProviderOracle)
    (prompt : String) (l : List String)
    (hp : (convertNaturalLanguageToRules e provider prompt).1.provider = none)
    (hc : (convertNaturalLanguageToRules e provider prompt).1.connectors = some l) :
    l.length + 1 = (convertNaturalLanguageToRules e provider prompt).1.conditions.length := by
  rw [convert_provider_none_eq e provider prompt hp] at hc ⊢
  exact localRules_connectors_length prompt l hc

/-- Witness for C3 at a concrete disabled environment and prompt. -/
theorem connectors_length_local_invariant_witness :
    (["AND", "AND"] : List String).length + 1 =
      (convertNaturalLanguageToRules ⟨none, none, none, none⟩ (fun _ => none)
        "customers who spent between 100 and 500").1.conditions.length :=
  connectors_length_local_invariant ⟨none, none, none, none⟩ (fun _ => none)
    "customers who spent between 100 and 500" ["AND", "AND"] (by decide) (by decide)

/-- Counterexample for C3 as stated: a validated provider response can
carry three connectors with a single condition, so the returned document
violates the length invariant. -/
theorem connectors_length_provider_counterexample :
    ¬ (∀ l : List String,
        (convertNaturalLanguageToRules ⟨some "true", some "key", none, none⟩
            oracleBadConnectors "hi").1.connectors = some l →
        l.length =
          (convertNaturalLanguageToRules ⟨some "true", some "key", none, none⟩
            oracleBadConnectors "hi").1.conditions.length - 1) := by
  intro h
  have h3 := h ["AND", "AND", "AND"] (by decide)
  exact absurd h3 (by decide)

/-! ## Claim C2: total degradation to the local result -/

theorem retries_invalid (provider : ProviderOracle)
    (hf : ∀ n j, provider n = some j → rulesSchemaParse j = none) :
    ∀ (k s : Nat),
      ((callProviderForRulesWithRetries provider s k).1 = none ∨
        ∃ j, (callProviderForRulesWithRetries provider s k).1 = some j ∧
          rulesSchemaParse j = none) ∧
      (callProviderForRulesWithRetries provider s k).2 ≤ k := by
  intro k
  induction k with
  | zero => intro s; exact ⟨Or.inl rfl, by simp [callProviderForRulesWithRetries]⟩
  | succ n ih =>
    intro s
    cases hpj : provider s with
    | some j =>
      refine ⟨Or.inr ⟨j, ?_, hf s j hpj⟩, ?_⟩ <;>
        simp [callProviderForRulesWithRetries, hpj]
    | none =>
      obtain ⟨hd, hk⟩ := ih (s + 1)
      constructor
      · rcases hd with h1 | ⟨j, h1, h2⟩
        · exact Or.inl (by simp [callProviderForRulesWithRetries, hpj, h1])
        · exact Or.inr ⟨j, by simp [callProviderForRulesWithRetries, hpj, h1], h2⟩
      · simp only [callProviderForRulesWithRetries, hpj]
        omega

theorem providerFallbackStage_invalid (e : Env) (provider : ProviderOracle) (lr : LocalRules)
    (k0 : Nat) (hf : ∀ n j, provider n = some j → rulesSchemaParse j = none) :
    (providerFallbackStage e provider lr k0).1 = localReturn lr ∧
    (providerFallbackStage e provider lr k0).2 ≤ k0 + 2 := by
  obtain ⟨hd, hk⟩ := retries_invalid provider hf 2 k0
  unfold providerFallbackStage
  split
  · split
    next j k2 heq =>
      rw [heq] at hd hk
      simp only [Prod.fst, Prod.snd] at hd hk
      rcases hd with h1 | ⟨j2, h1, h2⟩
      · exact absurd h1 (by simp)
      · injection h1 with h1
        subst h1
        rw [h2]
        refine ⟨rfl, ?_⟩
        show k0 + k2 ≤ k0 + 2
        omega
    next k2 heq =>
      rw [heq] at hk
      simp only [Prod.snd] at hk
      exact ⟨rfl, by omega⟩
  · exact ⟨rfl, by omega⟩

/-- C2: for every environment, prompt and provider oracle that fails on
every attempt (a thrown or timed-out call, unparseable text, or output
rejected by the rules schema), convertNaturalLanguageToRules returns the
Stage A local result with provider null, making at most the five calls of
the retry budget (three provider-first, two fallback).  Totality for all
inputs is by construction of the model. -/
theorem convert_provider_failure_local (e : Env) (provider : ProviderOracle) (prompt : String)
    (hf : ∀ n j, provider n = some j → rulesSchemaParse j = none) :
    (convertNaturalLanguageToRules e provider prompt).1 =
      localReturn (localRules prompt) ∧
    (convertNaturalLanguageToRules e provider prompt).1.provider = none ∧
    (convertNaturalLanguageToRules e provider prompt).2 ≤ 5 := by
  have main : (convertNaturalLanguageToRules e provider prompt).1 =
      localReturn (localRules prompt) ∧
      (convertNaturalLanguageToRules e provider prompt).2 ≤ 5 := by
    obtain ⟨hd, hk⟩ := retries_invalid provider hf 3 0
    unfold convertNaturalLanguageToRules
    split
    · split
      next j k1 heq =>
        rw [heq] at hd hk
        simp only [Prod.fst, Prod.snd] at hd hk
        rcases hd with h1 | ⟨j2, h1, h2⟩
        · exact absurd h1 (by simp)
        · injection h1 with h1
          subst h1
          rw [h2]
          obtain ⟨ha, hb⟩ := providerFallbackStage_invalid e provider (localRules prompt) k1 hf
          refine ⟨ha, ?_⟩
          show (providerFallbackStage e provider (localRules prompt) k1).2 ≤ 5
          omega
      next k1 heq =>
        rw [heq] at hk
        simp only [Prod.snd] at hk
        obtain ⟨ha, hb⟩ := providerFallbackStage_invalid e provider (localRules prompt) k1 hf
        exact ⟨ha, by omega⟩
    · obtain ⟨ha, hb⟩ := providerFallbackStage_invalid e provider (localRules prompt) 0 hf
      exact ⟨ha, by omega⟩
  exact ⟨main.1, by rw [main.1]; rfl, main.2⟩

/-- Witness for C2: a fully enabled environment with an always-failing
oracle still yields the local result. -/
theorem convert_provider_failure_local_witness :
    (convertNaturalLanguageToRules ⟨some "true", some "key", none, none⟩ (fun _ => none)
        "spent over 300").1 = localReturn (localRules "spent over 300") ∧
    (convertNaturalLanguageToRules ⟨some "true", some "key", none, none⟩ (fun _ => none)
        "spent over 300").1.provider = none ∧
    (convertNaturalLanguageToRules ⟨some "true", some "key", none, none⟩ (fun _ => none)
        "spent over 300").2 ≤ 5 :=
  convert_provider_failure_local ⟨some "true", some "key", none, none⟩ (fun _ => none)
    "spent over 300" (fun _ j h => by cases h)

/-! ## Claim C8: provider-first activation -/

/-- Counterexample for C8 as stated: with the generic enable flag unset,
no configuration with the Gemini key set ever makes a provider call, so
no such configuration attempts the provider before trusting Stage A. -/
theorem providerFirst_without_enable_counterexample :
    ¬ ∃ (e : Env) (provider : ProviderOracle) (prompt : String),
        e.ENABLE_PROVIDER_NL_TO_RULES = none ∧ truthy e.GEMINI_API_KEY = true ∧
        0 < (convertNaturalLanguageToRules e provider prompt).2 := by
  rintro ⟨e, provider, prompt, hE, -, hpos⟩
  have hen : e.enableProvider = false := by
    simp [Env.enableProvider, hE]
  rw [convertNaturalLanguageToRules, providerFallbackStage] at hpos
  rw [hen] at hpos
  simp at hpos

theorem retries_calls_pos (provider : ProviderOracle) (s n : Nat) (hn : 0 < n) :
    0 < (callProviderForRulesWithRetries provider s n).2 := by
  cases n with
  | zero => omega
  | succ m =>
    cases hpj : provider s <;> simp [callProviderForRulesWithRetries, hpj]

/-- C8 amended: provider-first auto-activates when the generic enable flag
is set and the Gemini key is configured, even with the provider-first
flag unset; in that configuration convertNaturalLanguageToRules attempts
the provider (makes at least one call) before trusting the Stage A
result. -/
theorem providerFirst_auto_activation (e : Env) (provider : ProviderOracle) (prompt : String)
    (hE : e.ENABLE_PROVIDER_NL_TO_RULES = some "true")
    (_hP : e.PROVIDER_FIRST_NL_TO_RULES = none)
    (hG : truthy e.GEMINI_API_KEY = true) :
    e.providerFirst = true ∧ 0 < (convertNaturalLanguageToRules e provider prompt).2 := by
  have hen : e.enableProvider = true := by simp [Env.enableProvider, hE]
  have hpf : e.providerFirst = true := by simp [Env.providerFirst, hen, hG]
  have hkey : truthy e.apiKey = true := by
    rw [Env.apiKey, jsOrOpt, if_pos hG]
    exact hG
  refine ⟨hpf, ?_⟩
  have hcalls := retries_calls_pos provider 0 3 (by omega)
  rw [convertNaturalLanguageToRules]
  rw [hen, hkey, hpf]
  simp only [Bool.and_self, if_true]
  split
  next j k1 heq =>
    rw [heq] at hcalls
    simp only [Prod.snd] at hcalls
    split
    · split
      · exact hcalls
      · have := providerFallbackStage_calls_ge e provider (localRules prompt) k1
        omega
    · have := providerFallbackStage_calls_ge e provider (localRules prompt) k1
      omega
  next k1 heq =>
    rw [heq] at hcalls
    simp only [Prod.snd] at hcalls
    have := providerFallbackStage_calls_ge e provider (localRules prompt) k1
    omega

/-- Witness for C8 at a concrete environment. -/
theorem providerFirst_auto_activation_witness :
    Env.providerFirst ⟨some "true", some "key", none, none⟩ = true ∧
    0 < (convertNaturalLanguageToRules ⟨some "true", some "key", none, none⟩
          (fun _ => none) "hi").2 :=
  providerFirst_auto_activation ⟨some "true", some "key", none, none⟩ (fun _ => none) "hi"
    rfl rfl (by decide)

/-! ## Claim C1: the compiler is total and unknown conditions are no-ops -/

/-- C1: buildWhereClause is total by construction; every condition with an
unknown field, or an operator unsupported for its field, compiles to the
empty no-op constraint, and the compile of the single-unknown-condition
example matches every customer record. -/
theorem buildWhereClause_unknown_condition_noop :
    (∀ (now : Int) (c : Condition), conditionSupported c = false →
        buildConditionWhere now c = emptyCW) ∧
    (∀ (now : Int) (cust : Customer),
        whereHolds
          (buildWhereClause now ⟨"AND", some [⟨"unknownField", ">", .num ⟨1, 0⟩⟩], none⟩)
          cust = true) := by
  constructor
  · intro now c h
    simp only [conditionSupported, Bool.or_eq_false_iff, Bool.and_eq_false_iff,
      decide_eq_false_iff_not] at h
    unfold buildConditionWhere
    split_ifs <;> tauto
  · intro now cust
    rfl

/-- Witness for C1 at a concrete unsupported condition and a concrete
customer. -/
theorem buildWhereClause_unknown_condition_noop_witness :
    buildConditionWhere 0 ⟨"unknownField", ">", .num ⟨1, 0⟩⟩ = emptyCW ∧
    whereHolds
      (buildWhereClause 0 ⟨"AND", some [⟨"unknownField", ">", .num ⟨1, 0⟩⟩], none⟩)
      ⟨⟨0, 0⟩, ⟨0, 0⟩, ⟨0, 0⟩, ""⟩ = true :=
  ⟨buildWhereClause_unknown_condition_noop.1 0 ⟨"unknownField", ">", .num ⟨1, 0⟩⟩ (by decide),
   buildWhereClause_unknown_condition_noop.2 0 ⟨⟨0, 0⟩, ⟨0, 0⟩, ⟨0, 0⟩, ""⟩⟩

/-! ## Claim C5: the compiler ignores connectors -/

/-- C5: two rules objects identical except for their connectors field
compile to the same filter, hence to the same predicate on customers;
only logic and conditions determine the output. -/
theorem buildWhereClause_ignores_connectors (now : Int) (r1 r2 : CompilerRules)
    (hl : r1.logic = r2.logic) (hc : r1.conditions = r2.conditions) :
    buildWhereClause now r1 = buildWhereClause now r2 ∧
    ∀ cust, whereHolds (buildWhereClause now r1) cust =
      whereHolds (buildWhereClause now r2) cust := by
  have he : buildWhereClause now r1 = buildWhereClause now r2 := by
    unfold buildWhereClause
    rw [hl, hc]
  exact ⟨he, fun cust => by rw [he]⟩

/-- Witness for C5: connectors absent versus connectors present. -/
theorem buildWhereClause_ignores_connectors_witness :
    buildWhereClause 0 ⟨"AND", some [⟨"totalSpending", ">", .num ⟨5, 0⟩⟩], none⟩ =
      buildWhereClause 0
        ⟨"AND", some [⟨"totalSpending", ">", .num ⟨5, 0⟩⟩], some ["OR", "AND"]⟩ :=
  (buildWhereClause_ignores_connectors 0
    ⟨"AND", some [⟨"totalSpending", ">", .num ⟨5, 0⟩⟩], none⟩
    ⟨"AND", some [⟨"totalSpending", ">", .num ⟨5, 0⟩⟩], some ["OR", "AND"]⟩ rfl rfl).1

/-! ## Claim C10: segment compiler versus campaign compiler -/

theorem buildConditionWhere_eq_segment (now : Int) (c : Condition)
    (h : c.field ≠ "lastVisit") :
    buildConditionWhere now c = buildConditionWhereSegment c := by
  unfold buildConditionWhere buildConditionWhereSegment
  split_ifs <;> rfl

/-- C10: on documents with no lastVisit condition the segment compiler and
the campaign compiler produce the same filter; and every lastVisit
condition compiles to the empty no-op constraint on the segment side, so
it is silently dropped from segment audience computation. -/
theorem segment_campaign_compiler_agreement :
    (∀ (now : Int) (rules : CompilerRules),
      (∀ c ∈ rules.conditions.getD [], c.field ≠ "lastVisit") →
      buildWhereClause now rules = buildWhereClauseForSegment rules) ∧
    (∀ c : Condition, c.field = "lastVisit" → buildConditionWhereSegment c = emptyCW) := by
  constructor
  · intro now rules h
    unfold buildWhereClause buildWhereClauseForSegment
    cases hc : rules.conditions with
    | none => rfl
    | some conds =>
      rw [hc] at h
      simp only [Option.getD_some] at h
      have hm : conds.map (buildConditionWhere now) = conds.map buildConditionWhereSegment :=
        List.map_congr_left (fun c hcm => buildConditionWhere_eq_segment now c (h c hcm))
      dsimp only
      rw [hm]
  · intro c h
    unfold buildConditionWhereSegment
    rw [h]
    rfl

/-- Witness for C10: a document with spending and email conditions
compiles identically in both routes, and a concrete lastVisit condition
is a segment no-op. -/
theorem segment_campaign_compiler_agreement_witness :
    buildWhereClause 7
        ⟨"AND", some [⟨"totalSpending", ">", .num ⟨5, 0⟩⟩, ⟨"email", "contains", .str "a"⟩],
          none⟩ =
      buildWhereClauseForSegment
        ⟨"AND", some [⟨"totalSpending", ">", .num ⟨5, 0⟩⟩, ⟨"email", "contains", .str "a"⟩],
          none⟩ ∧
    buildConditionWhereSegment ⟨"lastVisit", "before", .num ⟨1, 0⟩⟩ = emptyCW :=
  ⟨segment_campaign_compiler_agreement.1 7
      ⟨"AND", some [⟨"totalSpending", ">", .num ⟨5, 0⟩⟩, ⟨"email", "contains", .str "a"⟩], none⟩
      (by decide),
   segment_campaign_compiler_agreement.2 ⟨"lastVisit", "before", .num ⟨1, 0⟩⟩ rfl⟩

/-! ## Claim C4: the between prompt -/

/-- Counterexample for C4 as stated: with providers disabled, the between
prompt does not return exactly the two between-expansion conditions. -/
theorem between_prompt_counterexample :
    (convertNaturalLanguageToRules ⟨none, none, none, none⟩ (fun _ => none)
        "customers who spent between 100 and 500").1.conditions ≠
      [⟨"totalSpending", ">=", .num ⟨100, 0⟩⟩, ⟨"totalSpending", "<=", .num ⟨500, 0⟩⟩] := by
  decide

/-- C4 amended: the between prompt yields the two between-expansion
conditions plus a third condition from the spend-branch regex, which also
matches the text spent between 100 and therefore contributes a duplicate
greater-or-equal 100 condition, ordered last by its match index. -/
theorem between_prompt_conditions :
    (convertNaturalLanguageToRules ⟨none, none, none, none⟩ (fun _ => none)
        "customers who spent between 100 and 500").1 =
      ⟨"AND",
       [⟨"totalSpending", ">=", .num ⟨100, 0⟩⟩, ⟨"totalSpending", "<=", .num ⟨500, 0⟩⟩,
        ⟨"totalSpending", ">=", .num ⟨100, 0⟩⟩],
       some ["AND", "AND"], none⟩ := by
  decide

/-! ## Claim C7: under in the visit branch -/

/-- Counterexample for C7 as stated: the prompt came under 5 triggers the
visit-count family through the pushNumericCondition fallback, the word
under appears near the matched number with none of the other operator
words present, and the resulting operator is the less-than operator, not
the default. -/
theorem visitCount_under_counterexample :
    jsIncludes (toLowerList "came under 5") "under" = true ∧
    jsIncludes (toLowerList "came under 5") "less than" = false ∧
    jsIncludes (toLowerList "came under 5") "more than" = false ∧
    jsIncludes (toLowerList "came under 5") "over" = false ∧
    (localRules "came under 5").conditions = [⟨"visitCount", "<", .num ⟨5, 0⟩⟩] := by
  exact ⟨by decide, by decide, by decide, by decide, by decide⟩

/-- C7 amended: in the direct-match path of the visit branch (either visit
regex matched), the operator window recognises less-than only through the
words less than; when the window holds none of more than, over, or less
than — in particular when only under appears — the default
greater-or-equal operator is used. -/
theorem visitCount_direct_under_default (lp : List Char) (v : Dec) (idx : Nat)
    (hg : (jsIncludes lp "visit" || jsIncludes lp "visits" || jsIncludes lp "times"
      || jsIncludes lp "came") = true)
    (hm : visitMatched lp = some (v, idx))
    (h1 : jsIncludes (aroundWindow lp idx) "more than" = false)
    (h2 : jsIncludes (aroundWindow lp idx) "over" = false)
    (h3 : jsIncludes (aroundWindow lp idx) "less than" = false) :
    visitCands lp = [⟨"visitCount", ">=", v, idx⟩] := by
  unfold visitCands
  rw [hg, if_pos rfl, hm]
  unfold windowOp
  simp [h1, h2, h3]

/-- Witness for C7 at a prompt whose visit regex matches with under in the
window. -/
theorem visitCount_direct_under_default_witness :
    visitCands (toLowerList "customers with under 5 visits") =
      [⟨"visitCount", ">=", ⟨5, 0⟩, 21⟩] :=
  visitCount_direct_under_default (toLowerList "customers with under 5 visits") ⟨5, 0⟩ 21
    (by decide) (by decide) (by decide) (by decide) (by decide)
